import Mathlib

/-!
Shallow embedding of the `nntpserver` package (an NNTP server protocol
engine).  Pure parsing helpers become Lean functions; each command handler
becomes a function from its arguments, the session state and the remaining
client input lines to the events it writes, the updated session, the
remaining input and its outcome (normal return with an optional Go error,
or a runtime panic from an out-of-bounds slice access).  The pluggable
storage backend becomes a record of oracle functions.
-/

set_option autoImplicit false

namespace Nntp

/-! ## String utilities modelling the Go standard library -/

/-- Model of `strings.Split` restricted to a one-character separator
(the engine only ever splits on `"-"` and `" "`).  Splitting the empty
string yields `[""]`, as in Go. -/
def splitChar (sep : Char) : List Char → List (List Char)
  | [] => [[]]
  | c :: rest =>
    let r := splitChar sep rest
    if c = sep then [] :: r
    else
      match r with
      | [] => [[c]]
      | g :: gs => (c :: g) :: gs

/-- `strings.Split(s, sep)` for a one-character `sep`. -/
def goSplit (s : String) (sep : Char) : List String :=
  (splitChar sep s.toList).map (fun cs => ⟨cs⟩)

/-- `strings.SplitN(s, sep, n)` for a one-character `sep` and `n > 0`:
at most `n` pieces, the last piece keeping the unsplit remainder. -/
def goSplitN (s : String) (sep : Char) (n : Nat) : List String :=
  let parts := goSplit s sep
  if parts.length ≤ n then parts
  else parts.take (n - 1) ++ [String.intercalate (String.singleton sep) (parts.drop (n - 1))]

/-- `strings.ToLower` over the characters (core's `String.toLower` is
defined by position recursion the kernel cannot evaluate, so the same map
is taken over the character list). -/
def goToLower (s : String) : String :=
  ⟨s.toList.map Char.toLower⟩

/-- Largest `int64` value (`math.MaxInt64`). -/
def maxInt64 : Int := 9223372036854775807

/-- Smallest `int64` value (`math.MinInt64`). -/
def minInt64 : Int := -9223372036854775808

/-- Value of a nonempty all-digit character list, `none` otherwise. -/
def decDigits? : List Char → Option Nat
  | [] => none
  | cs =>
    cs.foldl
      (fun acc c =>
        match acc with
        | none => none
        | some n => if c.isDigit then some (10 * n + (c.toNat - 48)) else none)
      (some 0)

/-- Strip Go's optional leading sign: whether the token is negative, and
the remaining characters. -/
def goSign : List Char → Bool × List Char
  | '-' :: cs => (true, cs)
  | '+' :: cs => (false, cs)
  | cs => (false, cs)

/-- The mathematical integer a token denotes under Go's base-10 syntax
(optional sign, then one or more decimal digits), with no range bound.
This is the specification-level reading of "a parseable integer". -/
def specInt? (s : String) : Option Int :=
  (decDigits? (goSign s.toList).2).map
    (fun n : Nat => if (goSign s.toList).1 then -(n : Int) else (n : Int))

/-- Model of `strconv.ParseInt(s, 10, 64)`: the returned value together
with an error flag.  A syntax error (empty token, stray character, bare
sign) returns `(0, true)`; a range error returns the saturated extreme of
the appropriate sign with the error flag set, exactly as `strconv`
documents. -/
def parseInt64 (s : String) : Int × Bool :=
  match decDigits? (goSign s.toList).2 with
  | none => (0, true)
  | some n =>
    if (goSign s.toList).1 then
      if (n : Int) > 9223372036854775808 then (minInt64, true) else (-(n : Int), false)
    else
      if (n : Int) > maxInt64 then (maxInt64, true) else ((n : Int), false)

/-- `parseRange` from the source: parses `""`, `N`, `N-` and `N-M` forms
into a `(low, high)` pair.  The single-token branch ignores the parsed
value on error and substitutes `math.MaxInt64`; the two-token branch
discards the error of the first field (`l, _ := strconv.ParseInt(...)`)
and substitutes `math.MaxInt64` for the second field on error. -/
def parseRange (spec : String) : Int × Int :=
  if spec = "" then (0, maxInt64)
  else
    match goSplit spec '-' with
    | [p] =>
      let h := parseInt64 p
      (0, if h.2 then maxInt64 else h.1)
    | p0 :: p1 :: _ =>
      let l := parseInt64 p0
      let h := parseInt64 p1
      (l.1, if h.2 then maxInt64 else h.1)
    | [] => (0, maxInt64)

/-! ## Data model

`Group` and `Article` live in the`nntp` types package, which is imported
but not part of the server source; they are modelled from the spec. -/

/-- Modelled from the spec: a named newsgroup with a human description, an
article count, low and high watermarks, and a posting-permission flag (the
flag is only ever rendered, so it is kept as its rendered string). -/
structure Group where
  name : String
  description : String
  count : Int
  low : Int
  high : Int
  posting : String
  deriving DecidableEq

/-- A header multi-map: case-canonicalised names to value lists.
Canonicalisation is the reader layer's responsibility, so keys here are
already canonical (`Message-Id` and so on). -/
abbrev Hdr : Type := List (String × List String)

/-- Modelled from the spec: a message with headers, a body (modelled as the
list of its lines) and byte/line counts. -/
structure Article where
  header : Hdr
  body : List String
  bytes : Int
  lines : Int
  deriving DecidableEq

/-- Model of `textproto.MIMEHeader.Get`: first value of the key, or `""`
when absent.  The engine only queries already-canonical keys, so the
canonicalisation step of the real `Get` is the identity here. -/
def headerGet (h : Hdr) (k : String) : String :=
  match List.lookup k h with
  | some (v :: _) => v
  | _ => ""

/-- Modelled from the spec: the sentinel accessor yielding the first value
of the `Message-Id` header or the empty string. -/
def Article.messageID (a : Article) : String :=
  headerGet a.header "Message-Id"

/-- A pairing of an article with its local sequence number in a group. -/
structure NumberedArticle where
  num : Int
  article : Article
  deriving DecidableEq

/-! ## Errors -/

/-- The Go `error` values the engine distinguishes: tagged protocol errors
(`*NNTPError`), `io.EOF`, and any other error (carrying its message). -/
inductive GoError where
  | nntp (code : Nat) (msg : String)
  | eof
  | other (msg : String)
  deriving DecidableEq

def errNoSuchGroup : GoError := .nntp 411 "No such newsgroup"
def errNoGroupSelected : GoError := .nntp 412 "No newsgroup selected"
def errInvalidMessageID : GoError := .nntp 430 "No article with that message-id"
def errInvalidArticleNumber : GoError := .nntp 423 "No article with that number"
def errNoCurrentArticle : GoError := .nntp 420 "Current article number is invalid"
def errUnknownCommand : GoError := .nntp 500 "Unknown command"
def errSyntaxError : GoError := .nntp 501 "not supported, or syntax error"
def errPostingNotPermitted : GoError := .nntp 440 "Posting not permitted"
def errPostingFailed : GoError := .nntp 441 "posting failed"
def errNotWanted : GoError := .nntp 435 "Article not wanted"
def errAuthRejected : GoError := .nntp 452 "authorization rejected"

/-- `(*NNTPError).Error()`: `fmt.Sprintf("%d %s", e.Code, e.Msg)`.
Non-NNTP errors render their message (only used for logging). -/
def GoError.render : GoError → String
  | .nntp code msg => s!"{code} {msg}"
  | .eof => "EOF"
  | .other msg => msg

/-! ## Backend and session -/

/-- The pluggable storage backend, as the record of oracle operations the
engine consumes.  Fallible Go calls returning `(T, error)` become
`Except GoError T`; `Authenticate` may return a replacement backend, hence
the recursive occurrence. -/
inductive Backend where
  | mk
    (listGroups : Int → Except GoError (List Group))
    (getGroup : String → Except GoError Group)
    (getArticle : Option Group → String → Except GoError Article)
    (getArticles : Group → Int → Int → Except GoError (List NumberedArticle))
    (authorized : Bool)
    (authenticate : String → String → Except GoError (Option Backend))
    (allowPost : Bool)
    (post : Article → Except GoError Unit)

def Backend.listGroups : Backend → Int → Except GoError (List Group)
  | .mk f _ _ _ _ _ _ _ => f

def Backend.getGroup : Backend → String → Except GoError Group
  | .mk _ f _ _ _ _ _ _ => f

def Backend.getArticle : Backend → Option Group → String → Except GoError Article
  | .mk _ _ f _ _ _ _ _ => f

def Backend.getArticles : Backend → Group → Int → Int → Except GoError (List NumberedArticle)
  | .mk _ _ _ f _ _ _ _ => f

def Backend.authorized : Backend → Bool
  | .mk _ _ _ _ b _ _ _ => b

def Backend.authenticate : Backend → String → String → Except GoError (Option Backend)
  | .mk _ _ _ _ _ f _ _ => f

def Backend.allowPost : Backend → Bool
  | .mk _ _ _ _ _ _ b _ => b

def Backend.post : Backend → Article → Except GoError Unit
  | .mk _ _ _ _ _ _ _ f => f

/-- Per-connection session state: the active backend and the optionally
selected group.  (The server pointer only reaches the handler table, which
is modelled as the fixed `lookupHandler` map below.) -/
structure Session where
  backend : Backend
  group : Option Group

/-! ## Handler calculus -/

/-- What a client connection observes from one handler run: single
response lines (`PrintfLine`) and complete dot-terminated blocks (a
`DotWriter` that is always closed by `defer`). -/
inductive OutEvent where
  | line (s : String)
  | block (body : List String)
  deriving DecidableEq

/-- A handler's outcome: a normal Go return carrying an optional error, or
a runtime panic (an out-of-bounds slice index). -/
inductive Outcome where
  | ret (e : Option GoError)
  | panicked
  deriving DecidableEq

/-- Result of running one handler: events written, updated session,
remaining client input lines, and the outcome. -/
structure HOut where
  events : List OutEvent
  sess : Session
  input : List String
  outcome : Outcome

/-- The low-level protocol handler shape. -/
def Handler : Type :=
  List String → Session → List String → HOut

/-! ## Header formatting (`sendHeaders`) -/

/-- The fixed preferred order of `sendHeaders`. -/
def importantOrder : List String :=
  ["Subject", "From", "Date", "Message-Id", "References"]

/-- The keys of a header map. -/
def hdrKeys (h : Hdr) : List String := h.map Prod.fst

/-- All values stored under `k` (the Go map access `article.Header[k]`,
`[]` when the key is absent). -/
def headerVals (h : Hdr) (k : String) : List String :=
  match List.lookup k h with
  | some vs => vs
  | none => []

/-- The `hasImportantKeys` flag after the marking loop of `sendHeaders`:
the loop ranges over the header's keys and raises the flag of a preferred
key exactly when it occurs among them. -/
def hasImportantKeys (h : Hdr) (k : String) : Bool :=
  importantOrder.contains k && (hdrKeys h).contains k

/-- `sort.Strings`: ascending lexicographic sort.  On the distinct keys
of a map every correct sort produces the same list, so insertion sort is
a faithful model. -/
def sortStrings (l : List String) : List String :=
  List.insertionSort (· ≤ ·) l

/-- The body of the emission loop of `sendHeaders`: the entry's `v[0]`
first, then each value of `v[1:]` on its own line.  (The Go `v[0]` access
panics on an empty value list; a well-formed header multi-map never
stores one.) -/
def emitEntry (kv : String × List String) : List (String × String) :=
  match kv.2 with
  | [] => []
  | v :: vs => (kv.1, v) :: vs.map (fun w => (kv.1, w))

/-- `sendHeaders` at the level of `Name: value` pairs (the source renders
each pair as `"%s: %s\r\n"`).  Mirrors the source's phases: mark the
preferred keys present, collect the remaining keys and sort them, build
`newOrder`, then emit each entry through `emitEntry`. -/
def sendHeadersKV (h : Hdr) : List (String × String) :=
  let keys := sortStrings ((hdrKeys h).filter (fun k => !importantOrder.contains k))
  let newOrder : List (String × List String) :=
    importantOrder.filterMap
      (fun k => if hasImportantKeys h k then some (k, headerVals h k) else none)
    ++ keys.map (fun k => (k, headerVals h k))
  newOrder.flatMap emitEntry

/-- `sendHeaders` as the list of lines written into the dot block. -/
def sendHeaders (a : Article) : List String :=
  (sendHeadersKV a.header).map (fun p => p.1 ++ ": " ++ p.2)

/-! ## Article resolution -/

/-- `session.getArticle`: the shared `HEAD`/`BODY`/`ARTICLE` resolution
helper.  Checks for a selected group first, then for an id argument, then
forwards the raw token to the backend. -/
def Session.getArticle (s : Session) (args : List String) : Except GoError Article :=
  match s.group with
  | none => .error errNoGroupSelected
  | some g =>
    match args with
    | [] => .error errNoCurrentArticle
    | a0 :: _ => s.backend.getArticle (some g) a0

/-! ## Command handlers -/

/-- One `OVER` row:
`"%d\t%s\t%s\t%s\t%s\t%s\t%d\t%d\n"` over the five preferred headers
(first value each) plus the byte and line counts. -/
def overRow (a : NumberedArticle) : String :=
  let subj := headerGet a.article.header "Subject"
  let sender := headerGet a.article.header "From"
  let date := headerGet a.article.header "Date"
  let mid := headerGet a.article.header "Message-Id"
  let refs := headerGet a.article.header "References"
  s!"{a.num}\t{subj}\t{sender}\t{date}\t{mid}\t{refs}\t{a.article.bytes}\t{a.article.lines}"

/-- `handleOver` (registered for both `OVER` and `XOVER`): requires a
selected group, then reads `args[0]` unconditionally — a missing range
argument is an out-of-bounds access in the source. -/
def handleOver : Handler := fun args s inp =>
  match s.group with
  | none => ⟨[], s, inp, .ret (some errNoGroupSelected)⟩
  | some g =>
    match args with
    | [] => ⟨[], s, inp, .panicked⟩
    | a0 :: _ =>
      let r := parseRange a0
      match s.backend.getArticles g r.1 r.2 with
      | .error e => ⟨[], s, inp, .ret (some e)⟩
      | .ok articles =>
        ⟨[.line "224 here it comes", .block (articles.map overRow)], s, inp, .ret none⟩

/-- The fixed `LIST OVERVIEW.FMT` field layout. -/
def overviewFmtLines : List String :=
  ["Subject:", "From:", "Date:", "Message-ID:", "References:", ":bytes", ":lines"]

/-- `handleListOverviewFmt`. -/
def handleListOverviewFmt (s : Session) (inp : List String) : HOut :=
  ⟨[.line "215 Order of fields in overview database.", .block overviewFmtLines],
   s, inp, .ret none⟩

/-- The lines one group contributes inside the `LIST` dot block: the
switch in the source writes an `active` or `newsgroups` row and nothing
for any other list type. -/
def listRow (ltype : String) (g : Group) : List String :=
  if ltype = "active" then [s!"{g.name} {g.high} {g.low} {g.posting}"]
  else if ltype = "newsgroups" then [s!"{g.name} {g.description}"]
  else []

/-- `handleList`: the list type defaults to `active` and is lower-cased;
`overview.fmt` short-circuits; every other type fetches all groups via
`ListGroups(-1)` and emits the (possibly empty) dot block under `215`. -/
def handleList : Handler := fun args s inp =>
  let ltype := match args with
    | [] => "active"
    | a0 :: _ => goToLower a0
  if ltype = "overview.fmt" then handleListOverviewFmt s inp
  else
    match s.backend.listGroups (-1) with
    | .error e => ⟨[], s, inp, .ret (some e)⟩
    | .ok groups =>
      ⟨[.line "215 list of newsgroups follows", .block (groups.flatMap (listRow ltype))],
       s, inp, .ret none⟩

/-- `handleNewGroups` — a stub; the terminating dot is written with
`PrintfLine`, not a `DotWriter`. -/
def handleNewGroups : Handler := fun _ s inp =>
  ⟨[.line "231 list of newsgroups follows", .line "."], s, inp, .ret none⟩

/-- `handleDefault`: unknown commands. -/
def handleDefault : Handler := fun _ s inp =>
  ⟨[], s, inp, .ret (some errUnknownCommand)⟩

/-- `handleQuit`. -/
def handleQuit : Handler := fun _ s inp =>
  ⟨[.line "205 bye"], s, inp, .ret (some .eof)⟩

/-- The `211 count low high name` line of `GROUP`. -/
def groupLine211 (g : Group) : String :=
  s!"211 {g.count} {g.low} {g.high} {g.name}"

/-- `handleGroup`: with no argument the source returns `ErrNoSuchGroup`
(code 411); otherwise it fetches the group, binds it as the session's
selection and prints the `211` line. -/
def handleGroup : Handler := fun args s inp =>
  match args with
  | [] => ⟨[], s, inp, .ret (some errNoSuchGroup)⟩
  | a0 :: _ =>
    match s.backend.getGroup a0 with
    | .error e => ⟨[], s, inp, .ret (some e)⟩
    | .ok group =>
      ⟨[.line (groupLine211 group)], { s with group := some group }, inp, .ret none⟩

/-- The `211 ... list follows` intro line of `LISTGROUP`. -/
def listGroupLine211 (g : Group) : String :=
  s!"211 {g.count} {g.low} {g.high} {g.name} list follows"

/-- Final stage of `handleListGroup`: fetch the article numbers of the
(now selected) group `g` and emit the intro plus one number per line. -/
def listGroupArticles (g : Group) (s : Session) (inp : List String) (lo hi : Int) : HOut :=
  match s.backend.getArticles g lo hi with
  | .error e => ⟨[], s, inp, .ret (some e)⟩
  | .ok articles =>
    ⟨[.line (listGroupLine211 g), .block (articles.map (fun a => s!"{a.num}"))],
     s, inp, .ret none⟩

/-- Continuation of `handleListGroup` after the optional-group step:
the range argument defaults to `"1-"`, is parsed and validated, and only
then is the group argument (if any) fetched and bound. -/
def listGroupRest (args : List String) (group0 : Option Group) (s : Session)
    (inp : List String) : HOut :=
  let idxRange := match args with
    | _ :: r :: _ => r
    | _ => "1-"
  let r := parseRange idxRange
  if r.1 = 0 then ⟨[], s, inp, .ret (some errSyntaxError)⟩
  else if r.1 < 1 ∨ r.1 > r.2 then ⟨[], s, inp, .ret (some errSyntaxError)⟩
  else
    match group0 with
    | some g => listGroupArticles g s inp r.1 r.2
    | none =>
      match s.backend.getGroup (args.headD "") with
      | .error e => ⟨[], s, inp, .ret (some e)⟩
      | .ok g => listGroupArticles g { s with group := some g } inp r.1 r.2

/-- `handleListGroup`: with no argument it requires (and reuses) the
session's selected group; with a group argument the group is fetched and
bound only after the range validation of `listGroupRest`. -/
def handleListGroup : Handler := fun args s inp =>
  match args with
  | [] =>
    match s.group with
    | none => ⟨[], s, inp, .ret (some errNoGroupSelected)⟩
    | some g => listGroupRest [] (some g) s inp
  | _ :: _ => listGroupRest args none s inp

/-- `handleHead`. -/
def handleHead : Handler := fun args s inp =>
  match s.getArticle args with
  | .error e => ⟨[], s, inp, .ret (some e)⟩
  | .ok article =>
    ⟨[.line s!"221 1 {article.messageID}", .block (sendHeaders article)],
     s, inp, .ret none⟩

/-- `handleBody`. -/
def handleBody : Handler := fun args s inp =>
  match s.getArticle args with
  | .error e => ⟨[], s, inp, .ret (some e)⟩
  | .ok article =>
    ⟨[.line s!"222 1 {article.messageID}", .block article.body], s, inp, .ret none⟩

/-- `handleArticle`: headers, a blank separator line, then the body. -/
def handleArticle : Handler := fun args s inp =>
  match s.getArticle args with
  | .error e => ⟨[], s, inp, .ret (some e)⟩
  | .ok article =>
    ⟨[.line s!"220 1 {article.messageID}",
      .block (sendHeaders article ++ [""] ++ article.body)], s, inp, .ret none⟩

/-- Append a value under a key of a header multi-map (`textproto`
accumulates repeated keys into one entry). -/
def hdrAdd (k v : String) : Hdr → Hdr
  | [] => [(k, [v])]
  | (k', vs) :: rest =>
    if k' = k then (k', vs ++ [v]) :: rest else (k', vs) :: hdrAdd k v rest

/-- Simplified model of `textproto.ReadMIMEHeader`: consume lines up to a
blank line, splitting each at its first `":"` and trimming the value's
leading space; `none` on a malformed line or when the input ends first.
(MIME folding and canonicalisation are omitted; no claim depends on the
header-parsing details.) -/
def readMIMEHeaderGo : List String → Option (Hdr × List String)
  | [] => none
  | l :: rest =>
    if l = "" then some ([], rest)
    else
      match goSplitN l ':' 2 with
      | [k, v] =>
        match readMIMEHeaderGo rest with
        | some (h, rem) => some (hdrAdd k v.trimLeft h, rem)
        | none => none
      | _ => none

/-- Model of a dot-terminated block being drained through `DotReader`:
the lines before the `"."` terminator, and the input after it. -/
def dotConsume : List String → List String × List String
  | [] => ([], [])
  | l :: rest =>
    if l = "." then ([], rest)
    else
      let r := dotConsume rest
      (l :: r.1, r.2)

/-- `handlePost`. -/
def handlePost : Handler := fun _ s inp =>
  if !s.backend.allowPost then ⟨[], s, inp, .ret (some errPostingNotPermitted)⟩
  else
    match readMIMEHeaderGo inp with
    | none => ⟨[.line "340 Go ahead"], s, inp, .ret (some errPostingFailed)⟩
    | some (hdr, rest) =>
      let bodyRest := dotConsume rest
      match s.backend.post ⟨hdr, bodyRest.1, 0, 0⟩ with
      | .error e => ⟨[.line "340 Go ahead"], s, bodyRest.2, .ret (some e)⟩
      | .ok _ =>
        ⟨[.line "340 Go ahead", .line "240 article received OK"],
         s, bodyRest.2, .ret none⟩

/-- `handleIHave`: reads `args[0]` unconditionally once posting is
allowed — a missing message-id argument is an out-of-bounds access. -/
def handleIHave : Handler := fun args s inp =>
  if !s.backend.allowPost then ⟨[], s, inp, .ret (some errNotWanted)⟩
  else
    match args with
    | [] => ⟨[], s, inp, .panicked⟩
    | a0 :: _ =>
      match s.backend.getArticle none a0 with
      | .ok _ => ⟨[], s, inp, .ret (some errNotWanted)⟩
      | .error _ =>
        match readMIMEHeaderGo inp with
        | none => ⟨[.line "335 send it"], s, inp, .ret (some errPostingFailed)⟩
        | some (hdr, rest) =>
          let bodyRest := dotConsume rest
          match s.backend.post ⟨hdr, bodyRest.1, 0, 0⟩ with
          | .error e => ⟨[.line "335 send it"], s, bodyRest.2, .ret (some e)⟩
          | .ok _ =>
            ⟨[.line "335 send it", .line "235 article received OK"],
             s, bodyRest.2, .ret none⟩

/-- `handleCap`. -/
def handleCap : Handler := fun _ s inp =>
  ⟨[.line "101 Capability list:",
    .block (["VERSION 2", "READER"]
      ++ (if s.backend.allowPost then ["POST", "IHAVE"] else [])
      ++ ["OVER", "XOVER", "LIST ACTIVE NEWSGROUPS OVERVIEW.FMT"])],
   s, inp, .ret none⟩

/-- `handleMode`. -/
def handleMode : Handler := fun _ s inp =>
  if s.backend.allowPost then ⟨[.line "200 Posting allowed"], s, inp, .ret none⟩
  else ⟨[.line "201 Posting prohibited"], s, inp, .ret none⟩

/-- `handleAuthInfo`.  After the `350 Continue` challenge the source
ignores the `ReadLine` error, so exhausted input behaves as an empty
line.  The follow-up line is `SplitN` into at most three pieces;
`parts[1]` is only read when the first piece is `authinfo` (Go's `||`
short-circuits) and `parts[2]` only when the first two check out — each
read is an out-of-bounds access when the piece is missing. -/
def handleAuthInfo : Handler := fun args s inp =>
  if args.length < 2 then ⟨[], s, inp, .ret (some errSyntaxError)⟩
  else if goToLower (args.headD "") ≠ "user" then ⟨[], s, inp, .ret (some errSyntaxError)⟩
  else if s.backend.authorized then ⟨[.line "250 authenticated"], s, inp, .ret none⟩
  else
    let a := inp.headD ""
    let rest := inp.tail
    let parts := goSplitN a ' ' 3
    if goToLower (parts.headD "") ≠ "authinfo" then
      ⟨[.line "350 Continue"], s, rest, .ret (some errSyntaxError)⟩
    else if parts.length < 2 then
      ⟨[.line "350 Continue"], s, rest, .panicked⟩
    else if goToLower (parts.getD 1 "") ≠ "pass" then
      ⟨[.line "350 Continue"], s, rest, .ret (some errSyntaxError)⟩
    else if parts.length < 3 then
      ⟨[.line "350 Continue"], s, rest, .panicked⟩
    else
      match s.backend.authenticate (args.getD 1 "") (parts.getD 2 "") with
      | .error e => ⟨[.line "350 Continue"], s, rest, .ret (some e)⟩
      | .ok b? =>
        ⟨[.line "350 Continue", .line "250 authenticated"],
         { s with backend := b?.getD s.backend }, rest, .ret none⟩

/-! ## Dispatch and the session loop -/

/-- The handler table built by `NewServer`, keyed by lower-case command
name (the `""` entry is the default handler). -/
def lookupHandler : String → Option Handler
  | "" => some handleDefault
  | "quit" => some handleQuit
  | "group" => some handleGroup
  | "listgroup" => some handleListGroup
  | "list" => some handleList
  | "head" => some handleHead
  | "body" => some handleBody
  | "article" => some handleArticle
  | "post" => some handlePost
  | "ihave" => some handleIHave
  | "capabilities" => some handleCap
  | "mode" => some handleMode
  | "authinfo" => some handleAuthInfo
  | "newgroups" => some handleNewGroups
  | "over" => some handleOver
  | "xover" => some handleOver
  | _ => none

/-- `session.dispatchCommand`: look the lower-cased command up in the
table; a miss falls back to the `""` entry, which is the default
handler. -/
def dispatchCommand (cmd : String) (args : List String) (s : Session)
    (inp : List String) : HOut :=
  match lookupHandler (goToLower cmd) with
  | some h => h args s inp
  | none => handleDefault args s inp

/-- What one iteration of the `Process` loop does to the connection after
the handler returns. -/
inductive StepAction where
  | next
  | closeSilent
  | closeLogged
  | panicked
  deriving DecidableEq

/-- One iteration of the `Process` loop on the request line `l`: split on
spaces, dispatch `cmd[0]` with the remaining tokens as arguments, then
interpret the returned error — `io.EOF` drops the connection silently, an
`NNTPError` is printed as a single `code reason` line and the session
continues, and any other error is logged and drops the connection. -/
def serverStep (s : Session) (l : String) (inp : List String) :
    List OutEvent × Session × List String × StepAction :=
  let cmd := goSplit l ' '
  let args := if cmd.length > 1 then cmd.tail else []
  let r := dispatchCommand (cmd.headD "") args s inp
  match r.outcome with
  | .panicked => (r.events, r.sess, r.input, .panicked)
  | .ret none => (r.events, r.sess, r.input, .next)
  | .ret (some e) =>
    match e with
    | .eof => (r.events, r.sess, r.input, .closeSilent)
    | .nntp code msg =>
      (r.events ++ [.line (GoError.render (.nntp code msg))], r.sess, r.input, .next)
    | .other _ => (r.events, r.sess, r.input, .closeLogged)

/-! ## Concrete fixtures used by witnesses and counterexamples -/

/-- The group of the spec's end-to-end scenario 3. -/
def gTest : Group := ⟨"misc.test", "test group", 3, 1, 3, "y"⟩

/-- A plain backend: every group fetch finds `gTest`, article lookups
fail, article listings are empty, posting is allowed, the session is not
yet authorized. -/
def bQuiet : Backend := .mk
  (fun _ => .ok [])
  (fun _ => .ok gTest)
  (fun _ _ => .error errInvalidMessageID)
  (fun _ _ _ => .ok [])
  false
  (fun _ _ => .ok none)
  true
  (fun _ => .ok ())

def sQuiet : Session := ⟨bQuiet, none⟩

def sQuietGrp : Session := ⟨bQuiet, some gTest⟩

/-- A backend whose group fetch succeeds but whose article listing fails
with a non-protocol error. -/
def bArtFail : Backend := .mk
  (fun _ => .ok [])
  (fun _ => .ok gTest)
  (fun _ _ => .error errInvalidMessageID)
  (fun _ _ _ => .error (.other "boom"))
  false
  (fun _ _ => .ok none)
  true
  (fun _ => .ok ())

def sArtFail : Session := ⟨bArtFail, none⟩

/-- The backend an authentication swap installs. -/
def bSwapped : Backend := .mk
  (fun _ => .ok [])
  (fun _ => .error errNoSuchGroup)
  (fun _ _ => .error errInvalidMessageID)
  (fun _ _ _ => .ok [])
  true
  (fun _ _ => .ok none)
  false
  (fun _ => .error errPostingFailed)

/-- A backend whose `Authenticate` always succeeds and returns
`bSwapped` as the replacement backend. -/
def bAuthSwap : Backend := .mk
  (fun _ => .ok [])
  (fun _ => .ok gTest)
  (fun _ _ => .error errInvalidMessageID)
  (fun _ _ _ => .ok [])
  false
  (fun _ _ => .ok (some bSwapped))
  true
  (fun _ => .ok ())

def sAuthSwap : Session := ⟨bAuthSwap, none⟩

/-- Specification-side helper: the `Name: value` pairs a list of keys
expands to — every value of each key on its own line, in list order. -/
def expandVals (h : Hdr) (ks : List String) : List (String × String) :=
  ks.flatMap (fun k => (headerVals h k).map (fun v => (k, v)))

/-- Specification-side helper: the non-preferred keys of a header. -/
def remainingKeys (h : Hdr) : List String :=
  (hdrKeys h).filter (fun k => !importantOrder.contains k)

/-- A concrete header for the C6 witness. -/
def hTest : Hdr := [("X-Zed", ["z1", "z2"]), ("Subject", ["hello"]), ("Alpha", ["a"])]

/-! ## C1 — the GROUP handler -/

/-- **C1, counterexample.**  The claim says `GROUP` with no argument
returns the 412 error (no newsgroup selected); the source returns
`ErrNoSuchGroup`, which is code 411, so the claim fails at the concrete
invocation `GROUP` with an empty argument list. -/
theorem C1_counterexample :
    (handleGroup [] sQuiet []).outcome = .ret (some (.nntp 411 "No such newsgroup"))
    ∧ (handleGroup [] sQuiet []).outcome ≠ .ret (some (.nntp 412 "No newsgroup selected")) := by
  exact ⟨rfl, by decide⟩

/-- **C1 (amended).**  For every invocation of the GROUP handler: with no
argument it returns the 411 error `ErrNoSuchGroup` (not 412); when the
backend fails the fetch, that error is surfaced unchanged (the backend
contract makes it the 411 error for a missing group); and on backend
success it sets the session's selected group and writes the single line
`211 count low high name` built from the fetched group. -/
theorem C1_group_handler (args : List String) (s : Session) (inp : List String) :
    (args = [] → handleGroup args s inp = ⟨[], s, inp, .ret (some errNoSuchGroup)⟩)
    ∧ (∀ a rest, args = a :: rest →
        (∀ e, s.backend.getGroup a = .error e →
          handleGroup args s inp = ⟨[], s, inp, .ret (some e)⟩)
        ∧ (∀ g, s.backend.getGroup a = .ok g →
          handleGroup args s inp =
            ⟨[.line (groupLine211 g)], { s with group := some g }, inp, .ret none⟩)) := by
  refine ⟨fun h => by subst h; rfl, fun a rest h => ?_⟩
  subst h
  exact ⟨fun e he => by simp [handleGroup, he], fun g hg => by simp [handleGroup, hg]⟩

/-- **C1, witness.**  The amended theorem applied to the success case
`GROUP misc.test` of the spec's scenario 3. -/
theorem C1_group_handler_witness :
    handleGroup ["misc.test"] sQuiet [] =
      ⟨[.line (groupLine211 gTest)], { sQuiet with group := some gTest }, [], .ret none⟩ :=
  ((C1_group_handler ["misc.test"] sQuiet []).2 "misc.test" [] rfl).2 gTest rfl

/-! ## C2 — handlers running without out-of-bounds access -/

/-- **C2 (code bug).**  The claim (and the spec's §8 invariant) says every
handler runs to completion without out-of-bounds access for every
argument list.  The source reads `args[0]` unconditionally in `handleOver`
(after the group check) and in `handleIHave` (after the posting check),
and reads `parts[1]`/`parts[2]` of the split follow-up line in
`handleAuthInfo`; each read is an out-of-bounds slice access on the
inputs below.  The `getArticle` helper's own comment records that this
panic pattern was the intent to remove, so the code, not the claim, is
wrong. -/
theorem C2_handlers_panic :
    (handleOver [] sQuietGrp []).outcome = .panicked
    ∧ (handleIHave [] sQuiet []).outcome = .panicked
    ∧ (handleAuthInfo ["user", "alice"] sQuiet ["authinfo"]).outcome = .panicked
    ∧ serverStep sQuietGrp "OVER" [] = ([], sQuietGrp, [], .panicked) := by
  exact ⟨rfl, rfl, rfl, rfl⟩

/-! ## C3 — the range parser -/

/-- **C3, counterexample.**  `strconv.ParseInt` reports an out-of-range
numeral as an error while returning the saturated extreme, and
`parseRange` discards the error of the first field, keeping the value.
So for the unparsable lower token `9223372036854775808` (`2^63`, one past
`MaxInt64`) the lower bound is `MaxInt64`, not `0` as the claim requires. -/
theorem C3_counterexample :
    (parseInt64 "9223372036854775808").2 = true
    ∧ parseRange "9223372036854775808-5" = (9223372036854775807, 5)
    ∧ (parseRange "9223372036854775808-5").1 ≠ 0 := by
  refine ⟨by decide, by decide, by decide⟩

/-- **C3 (amended).**  `parseRange` returns `[0, MaxInt64]` for the empty
string; for a single token it returns `[0, N]` when the token parses and
`[0, MaxInt64]` otherwise; for `N-…` forms the upper bound is the second
field's value, or `MaxInt64` whenever that field does not parse, and the
lower bound is whatever value `ParseInt` returned for the first field
with its error discarded.  That value is the denoted integer when the
field is syntactically valid and in range, `0` on a syntax error, but the
saturated extreme (`MaxInt64`/`MinInt64`) — not `0` — on an out-of-range
numeral. -/
theorem C3_parseRange_amended :
    (parseRange "" = (0, maxInt64))
    ∧ (∀ s p, s ≠ "" → goSplit s '-' = [p] →
        parseRange s = (0, if (parseInt64 p).2 then maxInt64 else (parseInt64 p).1))
    ∧ (∀ s p0 p1 rest, s ≠ "" → goSplit s '-' = p0 :: p1 :: rest →
        parseRange s =
          ((parseInt64 p0).1, if (parseInt64 p1).2 then maxInt64 else (parseInt64 p1).1))
    ∧ (∀ t n, specInt? t = some n → minInt64 ≤ n → n ≤ maxInt64 → parseInt64 t = (n, false))
    ∧ (∀ t, specInt? t = none → parseInt64 t = (0, true))
    ∧ (∀ t n, specInt? t = some n → n > maxInt64 → parseInt64 t = (maxInt64, true))
    ∧ (∀ t n, specInt? t = some n → n < minInt64 → parseInt64 t = (minInt64, true)) := by
  refine ⟨by decide, ?_, ?_, ?_, ?_, ?_, ?_⟩
  · intro s p hne hsplit
    unfold parseRange
    rw [if_neg hne, hsplit]
  · intro s p0 p1 rest hne hsplit
    unfold parseRange
    rw [if_neg hne, hsplit]
  · intro t n hs hlo hhi
    unfold specInt? at hs
    unfold parseInt64
    cases hd : decDigits? (goSign t.toList).2 with
    | none => rw [hd] at hs; exact Option.noConfusion hs
    | some m =>
      rw [hd] at hs
      simp only [Option.map_some', Option.some.injEq] at hs
      cases hsg : (goSign t.toList).1 with
      | false =>
        rw [hsg] at hs
        simp only [Bool.false_eq_true, if_false] at hs ⊢
        subst hs
        rw [if_neg (by omega)]
      | true =>
        rw [hsg] at hs
        simp only [if_true] at hs ⊢
        subst hs
        unfold minInt64 at hlo
        rw [if_neg (by omega)]
  · intro t hs
    unfold specInt? at hs
    unfold parseInt64
    cases hd : decDigits? (goSign t.toList).2 with
    | none => rfl
    | some m => rw [hd] at hs; exact Option.noConfusion hs
  · intro t n hs hgt
    unfold specInt? at hs
    unfold parseInt64
    cases hd : decDigits? (goSign t.toList).2 with
    | none => rw [hd] at hs; exact Option.noConfusion hs
    | some m =>
      rw [hd] at hs
      simp only [Option.map_some', Option.some.injEq] at hs
      cases hsg : (goSign t.toList).1 with
      | false =>
        rw [hsg] at hs
        simp only [Bool.false_eq_true, if_false] at hs ⊢
        subst hs
        unfold maxInt64 at hgt ⊢
        rw [if_pos (by omega)]
      | true =>
        rw [hsg] at hs
        simp only [if_true] at hs ⊢
        subst hs
        unfold maxInt64 at hgt
        omega
  · intro t n hs hlt
    unfold specInt? at hs
    unfold parseInt64
    cases hd : decDigits? (goSign t.toList).2 with
    | none => rw [hd] at hs; exact Option.noConfusion hs
    | some m =>
      rw [hd] at hs
      simp only [Option.map_some', Option.some.injEq] at hs
      cases hsg : (goSign t.toList).1 with
      | false =>
        rw [hsg] at hs
        simp only [Bool.false_eq_true, if_false] at hs ⊢
        subst hs
        unfold minInt64 at hlt
        omega
      | true =>
        rw [hsg] at hs
        simp only [if_true] at hs ⊢
        subst hs
        unfold minInt64 at hlt
        rw [if_pos (by omega)]

/-- **C3, witness.**  The amended theorem applied to the concrete inputs
`""`, `3-7` and the overflow counterexample's lower token. -/
theorem C3_parseRange_witness :
    parseRange "" = (0, maxInt64)
    ∧ parseRange "3-7" = ((parseInt64 "3").1,
        if (parseInt64 "7").2 then maxInt64 else (parseInt64 "7").1)
    ∧ parseInt64 "9223372036854775808" = (maxInt64, true) :=
  ⟨C3_parseRange_amended.1,
   C3_parseRange_amended.2.2.1 "3-7" "3" "7" [] (by decide) (by decide),
   C3_parseRange_amended.2.2.2.2.2.1 "9223372036854775808" 9223372036854775808
     (by decide) (by decide)⟩

/-! ## C4 — the selected-group invariant -/

/-- The final stage of `LISTGROUP` never touches the session it is
given. -/
theorem listGroupArticles_sess (g : Group) (s : Session) (inp : List String) (lo hi : Int) :
    (listGroupArticles g s inp lo hi).sess = s := by
  cases hh : s.backend.getArticles g lo hi with
  | error e => simp [listGroupArticles, hh]
  | ok l => simp [listGroupArticles, hh]

/-- **C4, counterexample.**  The claim says no failing command changes
the selected group.  With a backend whose `GetGroup` succeeds but whose
`GetArticles` fails, `LISTGROUP g` fails (it returns the article-listing
error) yet has already rebound the session's selected group from `none`
to the fetched group. -/
theorem C4_counterexample :
    sArtFail.group = none
    ∧ (handleListGroup ["g"] sArtFail []).outcome = .ret (some (.other "boom"))
    ∧ (handleListGroup ["g"] sArtFail []).sess.group = some gTest := by
  exact ⟨rfl, rfl, rfl⟩

/-- **C4 (amended).**  The session's selected group is only ever changed
by a successful backend group fetch of the handler's group argument, and
is then set to the fetched group (so it is never cleared, and the example
`GROUP g` then `GROUP missing` keeps `g`): a failing `GROUP` never
changes it, and `GROUP`/`LISTGROUP` change it exactly to a group the
backend successfully returned for the named argument — including the case
of a `LISTGROUP` that binds its group and only then fails listing
articles. -/
theorem C4_selected_group_amended (args : List String) (s : Session) (inp : List String) :
    (∀ e, (handleGroup args s inp).outcome = .ret (some e) →
        (handleGroup args s inp).sess.group = s.group)
    ∧ ((handleGroup args s inp).sess.group = s.group
        ∨ ∃ a rest g, args = a :: rest ∧ s.backend.getGroup a = .ok g
            ∧ (handleGroup args s inp).sess.group = some g)
    ∧ ((handleListGroup args s inp).sess.group = s.group
        ∨ ∃ a rest g, args = a :: rest ∧ s.backend.getGroup a = .ok g
            ∧ (handleListGroup args s inp).sess.group = some g) := by
  refine ⟨?_, ?_, ?_⟩
  · intro e he
    cases args with
    | nil => rfl
    | cons a rest =>
      cases hg : s.backend.getGroup a with
      | error e' => simp [handleGroup, hg]
      | ok g => simp [handleGroup, hg] at he
  · cases args with
    | nil => exact Or.inl rfl
    | cons a rest =>
      cases hg : s.backend.getGroup a with
      | error e' => exact Or.inl (by simp [handleGroup, hg])
      | ok g => exact Or.inr ⟨a, rest, g, rfl, hg, by simp [handleGroup, hg]⟩
  · cases args with
    | nil =>
      cases hgr : s.group with
      | none => exact Or.inl (by simp [handleListGroup, hgr])
      | some g =>
        refine Or.inl ?_
      -- the default range "1-" passes validation, so only the final
      -- stage runs, and it does not touch the session
        have hpr : parseRange "1-" = (1, maxInt64) := by decide
        simp only [handleListGroup, hgr, listGroupRest, hpr]
        rw [if_neg (by decide), if_neg (by unfold maxInt64; omega)]
        rw [listGroupArticles_sess]
        exact hgr
    | cons a rest =>
      have hlg : handleListGroup (a :: rest) s inp = listGroupRest (a :: rest) none s inp := rfl
      rw [hlg]
      unfold listGroupRest
      by_cases h0 :
          (parseRange (match a :: rest with | _ :: r :: _ => r | _ => "1-")).1 = 0
      · rw [if_pos h0]; exact Or.inl rfl
      · rw [if_neg h0]
        by_cases h1 :
            (parseRange (match a :: rest with | _ :: r :: _ => r | _ => "1-")).1 < 1
            ∨ (parseRange (match a :: rest with | _ :: r :: _ => r | _ => "1-")).1
              > (parseRange (match a :: rest with | _ :: r :: _ => r | _ => "1-")).2
        · rw [if_pos h1]; exact Or.inl rfl
        · rw [if_neg h1]
          cases hg : s.backend.getGroup ((a :: rest).headD "") with
          | error e => exact Or.inl rfl
          | ok g =>
            refine Or.inr ⟨a, rest, g, rfl, hg, ?_⟩
            rw [listGroupArticles_sess]

/-- **C4, witness.**  The amended theorem applied to a failing `GROUP`
with no argument: the selection is untouched. -/
theorem C4_selected_group_amended_witness :
    (handleGroup [] sQuiet []).sess.group = sQuiet.group :=
  (C4_selected_group_amended [] sQuiet []).1 errNoSuchGroup rfl

/-! ## C5 — LISTGROUP argument and range validation -/

/-- **C5.**  `LISTGROUP` with no argument and no session group returns
412; the range argument defaults to `1-`; and a range whose `from` is 0,
below 1, or above `to` yields the 501 syntax error with the session
untouched, for every session and backend — the check precedes the backend
group fetch, so it hits even for nonexistent groups. -/
theorem C5_listgroup (s : Session) (inp : List String) :
    (s.group = none → handleListGroup [] s inp = ⟨[], s, inp, .ret (some errNoGroupSelected)⟩)
    ∧ (∀ g, handleListGroup [g] s inp = handleListGroup [g, "1-"] s inp)
    ∧ (∀ g r, ((parseRange r).1 = 0 ∨ (parseRange r).1 < 1
          ∨ (parseRange r).1 > (parseRange r).2) →
        handleListGroup [g, r] s inp = ⟨[], s, inp, .ret (some errSyntaxError)⟩) := by
  refine ⟨fun h => by simp [handleListGroup, h], fun g => rfl, ?_⟩
  intro g r hcond
  show listGroupRest [g, r] none s inp = _
  unfold listGroupRest
  by_cases h0 : (parseRange r).1 = 0
  · rw [if_pos h0]
  · have h1 : (parseRange r).1 < 1 ∨ (parseRange r).1 > (parseRange r).2 := by
      rcases hcond with h | h | h
      · exact absurd h h0
      · exact Or.inl h
      · exact Or.inr h
    rw [if_neg h0, if_pos h1]

/-- **C5, witness.**  The theorem applied to the spec's scenario 7,
`LISTGROUP badgroup 0-5`, and to an argumentless `LISTGROUP` with no
selected group. -/
theorem C5_listgroup_witness :
    handleListGroup [] sQuiet [] = ⟨[], sQuiet, [], .ret (some errNoGroupSelected)⟩
    ∧ handleListGroup ["badgroup", "0-5"] sQuiet []
        = ⟨[], sQuiet, [], .ret (some errSyntaxError)⟩ :=
  ⟨(C5_listgroup sQuiet []).1 rfl,
   (C5_listgroup sQuiet []).2.2 "badgroup" "0-5" (Or.inl (by decide))⟩

/-! ## C7 — shared HEAD/BODY/ARTICLE resolution -/

/-- **C7.**  The shared resolution helper returns 412 when no group is
selected, before looking at the arguments; returns 420 when a group is
selected but no id argument was given; and otherwise forwards the raw
token unchanged to the backend's `GetArticle`, so whatever error the
backend reports (430 for the message-id form, 423 for the numeric form,
per the backend contract) surfaces as the result. -/
theorem C7_getArticle (s : Session) (args : List String) :
    (s.group = none → s.getArticle args = .error errNoGroupSelected)
    ∧ (∀ g, s.group = some g → args = [] → s.getArticle args = .error errNoCurrentArticle)
    ∧ (∀ g a rest, s.group = some g → args = a :: rest →
        s.getArticle args = s.backend.getArticle (some g) a) := by
  refine ⟨fun h => by simp [Session.getArticle, h], ?_, ?_⟩
  · intro g hg ha
    subst ha
    simp [Session.getArticle, hg]
  · intro g a rest hg ha
    subst ha
    simp [Session.getArticle, hg]

/-- **C7, witness.**  The theorem applied with each of its three clauses
at a concrete session: no group selected, a group but no argument, and an
unresolvable message-id surfacing the backend's 430 error. -/
theorem C7_getArticle_witness :
    sQuiet.getArticle ["1"] = .error errNoGroupSelected
    ∧ sQuietGrp.getArticle [] = .error errNoCurrentArticle
    ∧ sQuietGrp.getArticle ["<m@e>"] = .error errInvalidMessageID :=
  ⟨(C7_getArticle sQuiet ["1"]).1 rfl,
   (C7_getArticle sQuietGrp []).2.1 gTest rfl rfl,
   by rw [(C7_getArticle sQuietGrp ["<m@e>"]).2.2 gTest "<m@e>" [] rfl rfl]; rfl⟩

/-! ## C10 — LIST with an unknown type argument -/

/-- **C10.**  A `LIST` whose type argument lower-cases to none of
`active`, `newsgroups`, `overview.fmt` still calls `ListGroups(-1)` (its
error would surface, and its result is consulted), replies
`215 list of newsgroups follows`, and emits a dot block with no per-group
lines — it does not return a syntax error. -/
theorem C10_list_unknown_type (t : String) (rest : List String) (s : Session)
    (inp : List String) (h1 : goToLower t ≠ "active") (h2 : goToLower t ≠ "newsgroups")
    (h3 : goToLower t ≠ "overview.fmt") :
    handleList (t :: rest) s inp =
      match s.backend.listGroups (-1) with
      | .error e => ⟨[], s, inp, .ret (some e)⟩
      | .ok _ => ⟨[.line "215 list of newsgroups follows", .block []], s, inp, .ret none⟩ := by
  have hrow : listRow (goToLower t) = fun _ => ([] : List String) := by
    funext g
    unfold listRow
    rw [if_neg h1, if_neg h2]
  unfold handleList
  simp only []
  rw [if_neg h3]
  cases hlg : s.backend.listGroups (-1) with
  | error e => simp [hlg]
  | ok groups => simp [hlg, hrow]

/-- **C10, witness.**  The theorem applied to `LIST wtf` against the
concrete backend, whose `ListGroups(-1)` succeeds. -/
theorem C10_list_unknown_type_witness :
    handleList ["wtf"] sQuiet [] =
      ⟨[.line "215 list of newsgroups follows", .block []], sQuiet, [], .ret none⟩ :=
  C10_list_unknown_type "wtf" [] sQuiet [] (by decide) (by decide) (by decide)

/-! ## C6 — header emission order -/

/-- The emission loop body is value expansion: `v[0]` followed by `v[1:]`
is all of `v` in order. -/
theorem emitEntry_eq_map (kv : String × List String) :
    emitEntry kv = kv.2.map (fun v => (kv.1, v)) := by
  rcases kv with ⟨k, vs⟩
  cases vs <;> rfl

/-- A `filterMap` whose function is an if-then-some is a filter followed
by a map. -/
theorem filterMap_ite {α β : Type} (p : α → Bool) (f : α → β) (l : List α) :
    l.filterMap (fun a => if p a then some (f a) else none) = (l.filter p).map f := by
  induction l with
  | nil => rfl
  | cons x xs ih =>
    by_cases hx : p x <;> simp [List.filterMap_cons, List.filter_cons, hx, ih]

/-- A key among a header's keys has a stored value list. -/
theorem lookup_of_mem_keys (h : Hdr) (k : String) (hk : k ∈ hdrKeys h) :
    ∃ vs, List.lookup k h = some vs ∧ (k, vs) ∈ h := by
  induction h with
  | nil => cases hk
  | cons p t ih =>
    rcases p with ⟨k', vs'⟩
    by_cases hkk : k = k'
    · subst hkk
      exact ⟨vs', by simp [List.lookup], List.mem_cons_self _ _⟩
    · have hk' : k ∈ hdrKeys t := by
        rcases List.mem_cons.mp hk with h1 | h1
        · exact absurd h1 hkk
        · exact h1
      rcases ih hk' with ⟨vs, hl, hm⟩
      refine ⟨vs, ?_, List.mem_cons_of_mem _ hm⟩
      have hbeq : (k == k') = false := beq_false_of_ne hkk
      show (match k == k' with
        | true => some vs'
        | false => List.lookup k t) = some vs
      rw [hbeq]
      exact hl

/-- **C6.**  For every well-formed header multi-map (each stored key has
at least one value, as `textproto` guarantees), `sendHeaders` emits
exactly: the five preferred headers in their fixed order, filtered to the
ones present, each expanded to one `Name: value` line per value in list
order — all before the remaining headers, which follow as the
lexicographically sorted rearrangement of the non-preferred keys, expanded
the same way; and a preferred header is emitted if and only if it is
present. -/
theorem C6_sendHeaders (h : Hdr) (hvals : ∀ p ∈ h, p.2 ≠ []) :
    sendHeadersKV h =
      expandVals h (importantOrder.filter (fun k => (hdrKeys h).contains k))
      ++ expandVals h (sortStrings (remainingKeys h))
    ∧ List.Sorted (· ≤ ·) (sortStrings (remainingKeys h))
    ∧ List.Perm (sortStrings (remainingKeys h)) (remainingKeys h)
    ∧ (∀ k, k ∈ importantOrder → ((∃ v, (k, v) ∈ sendHeadersKV h) ↔ k ∈ hdrKeys h)) := by
  have hcong : importantOrder.filter (fun k => hasImportantKeys h k)
      = importantOrder.filter (fun k => (hdrKeys h).contains k) := by
    refine List.filter_congr (fun k hk => ?_)
    unfold hasImportantKeys
    have hct : importantOrder.contains k = true := List.elem_eq_true_of_mem hk
    rw [hct, Bool.true_and]
  have heq : sendHeadersKV h =
      expandVals h (importantOrder.filter (fun k => (hdrKeys h).contains k))
      ++ expandVals h (sortStrings (remainingKeys h)) := by
    unfold sendHeadersKV
    rw [show emitEntry = fun kv : String × List String => kv.2.map (fun v => (kv.1, v))
        from funext emitEntry_eq_map]
    rw [List.flatMap_append, filterMap_ite, List.flatMap_map, List.flatMap_map, hcong]
    rfl
  refine ⟨heq, List.sorted_insertionSort _ _, List.perm_insertionSort _ _, ?_⟩
  intro k hkimp
  constructor
  · rintro ⟨v, hv⟩
    rw [heq] at hv
    rcases List.mem_append.mp hv with hv | hv
    · rcases List.mem_flatMap.mp hv with ⟨k', hk', hmem⟩
      rcases List.mem_map.mp hmem with ⟨v', _, hpair⟩
      obtain ⟨h1, h2⟩ := Prod.mk.inj hpair
      subst h1
      exact List.mem_of_elem_eq_true (List.mem_filter.mp hk').2
    · rcases List.mem_flatMap.mp hv with ⟨k', hk', hmem⟩
      rcases List.mem_map.mp hmem with ⟨v', _, hpair⟩
      obtain ⟨h1, h2⟩ := Prod.mk.inj hpair
      subst h1
      unfold sortStrings at hk'
      have hk'' : k' ∈ remainingKeys h := (List.perm_insertionSort _ _).subset hk'
      exact List.mem_of_mem_filter hk''
  · intro hk
    rcases lookup_of_mem_keys h k hk with ⟨vs, hl, hm⟩
    have hne := hvals _ hm
    rcases hvs : vs with _ | ⟨v, vrest⟩
    · exact absurd hvs hne
    refine ⟨v, ?_⟩
    rw [heq]
    refine List.mem_append_left _ ?_
    refine List.mem_flatMap.mpr ⟨k, ?_, ?_⟩
    · exact List.mem_filter.mpr ⟨hkimp, List.elem_eq_true_of_mem hk⟩
    · refine List.mem_map.mpr ⟨v, ?_, rfl⟩
      unfold headerVals
      rw [hl, hvs]
      exact List.mem_cons_self _ _

/-- **C6, witness.**  The theorem applied to a concrete header with a
preferred key, two non-preferred keys out of order, and a multi-valued
key. -/
theorem C6_sendHeaders_witness :
    sendHeadersKV hTest =
      expandVals hTest (importantOrder.filter (fun k => (hdrKeys hTest).contains k))
      ++ expandVals hTest (sortStrings (remainingKeys hTest)) :=
  (C6_sendHeaders hTest (by decide)).1

/-! ## C8 — AUTHINFO USER -/

/-- **C8, counterexample.**  The claim says a follow-up line that fails to
parse as `AUTHINFO PASS <pass>` yields 501.  The follow-up line
`authinfo pass` (no password) passes both keyword checks and then the
source reads `parts[2]` of a two-element slice: an out-of-bounds access,
not a 501 reply. -/
theorem C8_counterexample :
    (handleAuthInfo ["user", "alice"] sQuiet ["authinfo pass"]).outcome = .panicked
    ∧ (handleAuthInfo ["user", "alice"] sQuiet ["authinfo pass"]).outcome
        ≠ .ret (some errSyntaxError) := by
  exact ⟨rfl, by decide⟩

/-- **C8 (amended).**  For every `AUTHINFO USER` invocation with a user
argument: if the backend is already authorized it replies
`250 authenticated` without a challenge; otherwise it replies
`350 Continue` and reads one more line, split into at most three
space-separated pieces.  It returns 501 when the first piece is not
`authinfo` (case-insensitively) or when a second piece exists but is not
`pass`; when the line is exactly `AUTHINFO` or exactly `AUTHINFO PASS`
(too few pieces) it instead fails with an out-of-bounds access.  With all
three pieces it calls `Authenticate(user, pass)`: on success it replies
250 and replaces the session's backend exactly when a non-null backend is
returned; on failure the returned error is surfaced and the backend is
unchanged. -/
theorem C8_authinfo_amended (u0 u : String) (urest : List String) (s : Session)
    (a : String) (inp : List String) (hu : goToLower u0 = "user") :
    (s.backend.authorized = true →
      handleAuthInfo (u0 :: u :: urest) s inp = ⟨[.line "250 authenticated"], s, inp, .ret none⟩)
    ∧ (s.backend.authorized = false →
        (goToLower ((goSplitN a ' ' 3).headD "") ≠ "authinfo" →
          handleAuthInfo (u0 :: u :: urest) s (a :: inp)
            = ⟨[.line "350 Continue"], s, inp, .ret (some errSyntaxError)⟩)
        ∧ (∀ p0, goSplitN a ' ' 3 = [p0] → goToLower p0 = "authinfo" →
            handleAuthInfo (u0 :: u :: urest) s (a :: inp)
              = ⟨[.line "350 Continue"], s, inp, .panicked⟩)
        ∧ (∀ p0 p1 prest, goSplitN a ' ' 3 = p0 :: p1 :: prest → goToLower p0 = "authinfo" →
            goToLower p1 ≠ "pass" →
            handleAuthInfo (u0 :: u :: urest) s (a :: inp)
              = ⟨[.line "350 Continue"], s, inp, .ret (some errSyntaxError)⟩)
        ∧ (∀ p0 p1, goSplitN a ' ' 3 = [p0, p1] → goToLower p0 = "authinfo" →
            goToLower p1 = "pass" →
            handleAuthInfo (u0 :: u :: urest) s (a :: inp)
              = ⟨[.line "350 Continue"], s, inp, .panicked⟩)
        ∧ (∀ p0 p1 p2 prest, goSplitN a ' ' 3 = p0 :: p1 :: p2 :: prest →
            goToLower p0 = "authinfo" → goToLower p1 = "pass" →
            (∀ e, s.backend.authenticate u p2 = .error e →
              handleAuthInfo (u0 :: u :: urest) s (a :: inp)
                = ⟨[.line "350 Continue"], s, inp, .ret (some e)⟩)
            ∧ (s.backend.authenticate u p2 = .ok none →
              handleAuthInfo (u0 :: u :: urest) s (a :: inp)
                = ⟨[.line "350 Continue", .line "250 authenticated"], s, inp, .ret none⟩)
            ∧ (∀ b, s.backend.authenticate u p2 = .ok (some b) →
              handleAuthInfo (u0 :: u :: urest) s (a :: inp)
                = ⟨[.line "350 Continue", .line "250 authenticated"],
                   { s with backend := b }, inp, .ret none⟩))) := by
  have hlen : ¬((u0 :: u :: urest).length < 2) := by
    simp only [List.length_cons]
    omega
  have hud : ¬(goToLower ((u0 :: u :: urest).headD "") ≠ "user") := by
    simp [hu]
  constructor
  · intro hauth
    unfold handleAuthInfo
    rw [if_neg hlen, if_neg hud, if_pos hauth]
  · intro hnauth
    have hnauth' : ¬(s.backend.authorized = true) := by rw [hnauth]; exact Bool.false_ne_true
    refine ⟨?_, ?_, ?_, ?_, ?_⟩
    · intro hp0
      unfold handleAuthInfo
      rw [if_neg hlen, if_neg hud, if_neg hnauth']
      simp only [List.headD_cons, List.tail_cons]
      rw [if_pos hp0]
    · intro p0 hsplit hp0
      unfold handleAuthInfo
      rw [if_neg hlen, if_neg hud, if_neg hnauth']
      simp only [List.headD_cons, List.tail_cons, hsplit]
      rw [if_neg (by simp [hp0]), if_pos (by simp)]
    · intro p0 p1 prest hsplit hp0 hp1
      unfold handleAuthInfo
      rw [if_neg hlen, if_neg hud, if_neg hnauth']
      simp only [List.headD_cons, List.tail_cons, hsplit]
      rw [if_neg (by simp [hp0]), if_neg (by simp), if_pos (by simpa using hp1)]
    · intro p0 p1 hsplit hp0 hp1
      unfold handleAuthInfo
      rw [if_neg hlen, if_neg hud, if_neg hnauth']
      simp only [List.headD_cons, List.tail_cons, hsplit]
      rw [if_neg (by simp [hp0]), if_neg (by simp), if_neg (by simpa using hp1),
        if_pos (by simp)]
    · intro p0 p1 p2 prest hsplit hp0 hp1
      refine ⟨?_, ?_, ?_⟩
      · intro e he
        unfold handleAuthInfo
        rw [if_neg hlen, if_neg hud, if_neg hnauth']
        simp only [List.headD_cons, List.tail_cons, hsplit]
        rw [if_neg (by simp [hp0]), if_neg (by simp), if_neg (by simpa using hp1),
          if_neg (by simp)]
        simp only [List.getD_cons_succ, List.getD_cons_zero]
        rw [he]
      · intro hok
        unfold handleAuthInfo
        rw [if_neg hlen, if_neg hud, if_neg hnauth']
        simp only [List.headD_cons, List.tail_cons, hsplit]
        rw [if_neg (by simp [hp0]), if_neg (by simp), if_neg (by simpa using hp1),
          if_neg (by simp)]
        simp only [List.getD_cons_succ, List.getD_cons_zero]
        rw [hok]
        rfl
      · intro b hok
        unfold handleAuthInfo
        rw [if_neg hlen, if_neg hud, if_neg hnauth']
        simp only [List.headD_cons, List.tail_cons, hsplit]
        rw [if_neg (by simp [hp0]), if_neg (by simp), if_neg (by simpa using hp1),
          if_neg (by simp)]
        simp only [List.getD_cons_succ, List.getD_cons_zero]
        rw [hok]
        rfl

/-- **C8, witness.**  The amended theorem applied to the full success
path with a backend swap: `AUTHINFO USER alice`, follow-up
`authinfo pass pw`, and an `Authenticate` returning a replacement
backend. -/
theorem C8_authinfo_amended_witness :
    handleAuthInfo ["user", "alice"] sAuthSwap ["authinfo pass pw"]
      = ⟨[.line "350 Continue", .line "250 authenticated"],
         ⟨bSwapped, none⟩, [], .ret none⟩ :=
  (((C8_authinfo_amended "user" "alice" [] sAuthSwap "authinfo pass pw" [] rfl).2
    rfl).2.2.2.2 "authinfo" "pass" "pw" [] (by decide) rfl rfl).2.2 bSwapped rfl

/-! ## C9 — the session loop's error interpretation -/

/-- **C9.**  For every request line: the command (the line's first
space-separated token) is looked up by its lower-cased name, and an
unknown command produces exactly the single line `500 Unknown command`
with the session retained; whatever handler runs, an `NNTPError` result
appends exactly the single line `code reason` and the session continues,
an `io.EOF` result closes the connection silently, and any other error
drops (and logs) the connection. -/
theorem C9_process_loop (s : Session) (l : String) (inp : List String) :
    (lookupHandler (goToLower ((goSplit l ' ').headD "")) = none →
      serverStep s l inp = ([.line "500 Unknown command"], s, inp, .next))
    ∧ (∀ r, dispatchCommand ((goSplit l ' ').headD "")
          (if (goSplit l ' ').length > 1 then (goSplit l ' ').tail else []) s inp = r →
        (∀ code msg, r.outcome = .ret (some (.nntp code msg)) →
          serverStep s l inp =
            (r.events ++ [.line (GoError.render (.nntp code msg))], r.sess, r.input, .next))
        ∧ (r.outcome = .ret (some .eof) →
          serverStep s l inp = (r.events, r.sess, r.input, .closeSilent))
        ∧ (∀ m, r.outcome = .ret (some (.other m)) →
          serverStep s l inp = (r.events, r.sess, r.input, .closeLogged))
        ∧ (r.outcome = .ret none →
          serverStep s l inp = (r.events, r.sess, r.input, .next))) := by
  constructor
  · intro hnone
    unfold serverStep
    simp only []
    unfold dispatchCommand
    rw [hnone]
    rfl
  · intro r hr
    unfold serverStep
    simp only []
    rw [hr]
    refine ⟨?_, ?_, ?_, ?_⟩
    · intro code msg hout
      rw [hout]
    · intro hout
      rw [hout]
    · intro m hout
      rw [hout]
    · intro hout
      rw [hout]

/-- **C9, witness.**  The theorem applied to an unknown command, to an
`NNTPError`-returning handler (`GROUP` with no argument), and to `QUIT`
(which returns `io.EOF` after `205 bye`). -/
theorem C9_process_loop_witness :
    serverStep sQuiet "bogus" [] = ([.line "500 Unknown command"], sQuiet, [], .next)
    ∧ serverStep sQuiet "GROUP" [] = ([.line "411 No such newsgroup"], sQuiet, [], .next)
    ∧ serverStep sQuiet "QUIT" [] = ([.line "205 bye"], sQuiet, [], .closeSilent) :=
  ⟨(C9_process_loop sQuiet "bogus" []).1 rfl,
   ((C9_process_loop sQuiet "GROUP" []).2 _ rfl).1 411 "No such newsgroup" rfl,
   ((C9_process_loop sQuiet "QUIT" []).2 _ rfl).2.1 rfl⟩

end Nntp
